import Mathlib

/-!
Verification development for the DataVisualization repository.

The repository has two Python scripts:
  * `GalaxyMorphologyArt/galaxy_morphology_art.py` — fetches SDSS galaxy
    photometry (or generates synthetic data on any failure), derives
    morphology columns, and renders artwork.
  * `SatelliteConstellationTrails/satellite_visualizer.py` — tracks
    satellites from TLE data and animates their positions and trails.

This file shallowly embeds the data model and the operations of both
scripts.  Machine floats are modelled by `FVal` (a rational together with
the three IEEE-754 special values that the numpy/pandas code can produce);
pandas data frames by a `Table` structure with one optional column per
field the code touches; the numpy global random generator by a family of
deterministic sampling streams plus a draw counter that `np.random.seed`
resets; external effects (HTTP responses, CSV parsing, file writes) by
explicit parameters of `Option`/`Except` type.
-/

namespace DataViz

/-- Value of a numpy/pandas float64 cell: a finite rational or one of the
IEEE-754 special values (positive infinity, negative infinity, NaN). -/
inductive FVal where
  | num (q : ℚ)
  | pinf
  | ninf
  | nan
deriving DecidableEq

/-- IEEE-754 addition on `FVal` (numpy elementwise `+`). -/
def fadd : FVal → FVal → FVal
  | .nan, _ => .nan
  | _, .nan => .nan
  | .num a, .num b => .num (a + b)
  | .pinf, .ninf => .nan
  | .ninf, .pinf => .nan
  | .pinf, _ => .pinf
  | _, .pinf => .pinf
  | .ninf, _ => .ninf
  | _, .ninf => .ninf

/-- IEEE-754 subtraction on `FVal` (numpy elementwise `-`). -/
def fsub : FVal → FVal → FVal
  | .nan, _ => .nan
  | _, .nan => .nan
  | .num a, .num b => .num (a - b)
  | .pinf, .pinf => .nan
  | .ninf, .ninf => .nan
  | .pinf, _ => .pinf
  | .ninf, _ => .ninf
  | _, .pinf => .ninf
  | _, .ninf => .pinf

/-- IEEE-754 multiplication on `FVal` (numpy elementwise `*`). -/
def fmul : FVal → FVal → FVal
  | .nan, _ => .nan
  | _, .nan => .nan
  | .num a, .num b => .num (a * b)
  | .pinf, .num b => if b = 0 then .nan else if 0 < b then .pinf else .ninf
  | .num a, .pinf => if a = 0 then .nan else if 0 < a then .pinf else .ninf
  | .ninf, .num b => if b = 0 then .nan else if 0 < b then .ninf else .pinf
  | .num a, .ninf => if a = 0 then .nan else if 0 < a then .ninf else .pinf
  | .pinf, .pinf => .pinf
  | .pinf, .ninf => .ninf
  | .ninf, .pinf => .ninf
  | .ninf, .ninf => .pinf

/-- IEEE-754 division on `FVal` (numpy elementwise `/`; the script
suppresses warnings, so `x / 0` silently yields `±inf` or `nan`). -/
def fdiv : FVal → FVal → FVal
  | .nan, _ => .nan
  | _, .nan => .nan
  | .num a, .num b =>
      if b = 0 then (if a = 0 then .nan else if 0 < a then .pinf else .ninf)
      else .num (a / b)
  | .num _, .pinf => .num 0
  | .num _, .ninf => .num 0
  | .pinf, .num b => if 0 ≤ b then .pinf else .ninf
  | .ninf, .num b => if 0 ≤ b then .ninf else .pinf
  | .pinf, _ => .nan
  | .ninf, _ => .nan

/-- `np.clip(x, lo, hi)` = `np.minimum(hi, np.maximum(lo, x))`; NaN
propagates through both `minimum` and `maximum`. -/
def fclip : FVal → ℚ → ℚ → FVal
  | .nan, _, _ => .nan
  | .pinf, _, hi => .num hi
  | .ninf, lo, _ => .num lo
  | .num q, lo, hi => .num (min hi (max lo q))

/-- Elementwise comparison `x < b` against a scalar; NaN compares false. -/
def fltQ : FVal → ℚ → Bool
  | .num a, b => decide (a < b)
  | .ninf, _ => true
  | _, _ => false

/-- Elementwise comparison `x >= b` against a scalar; NaN compares false. -/
def fgeQ : FVal → ℚ → Bool
  | .num a, b => decide (b ≤ a)
  | .pinf, _ => true
  | _, _ => false

/-- Binary minimum of two non-NaN-skipped values, as used by the
NaN-skipping reduction behind `pandas.Series.min`. -/
def fminTwo : FVal → FVal → FVal
  | .nan, w => w
  | v, .nan => v
  | .ninf, _ => .ninf
  | _, .ninf => .ninf
  | .pinf, w => w
  | v, .pinf => v
  | .num a, .num b => .num (min a b)

/-- Binary maximum counterpart of `fminTwo`. -/
def fmaxTwo : FVal → FVal → FVal
  | .nan, w => w
  | v, .nan => v
  | .pinf, _ => .pinf
  | _, .pinf => .pinf
  | .ninf, w => w
  | v, .ninf => v
  | .num a, .num b => .num (max a b)

/-- One pandas column. -/
abbrev Column := List FVal

/-- Whether a cell is not NaN (`pandas.notna` for floats). -/
def notNan : FVal → Bool
  | .nan => false
  | _ => true

/-- `pandas.Series.min` with its default `skipna=True`: NaN entries are
ignored; an empty (or all-NaN) column reduces to NaN. -/
def colMin (c : Column) : FVal :=
  match c.filter notNan with
  | [] => FVal.nan
  | x :: xs => xs.foldl fminTwo x

/-- `pandas.Series.max` with its default `skipna=True`. -/
def colMax (c : Column) : FVal :=
  match c.filter notNan with
  | [] => FVal.nan
  | x :: xs => xs.foldl fmaxTwo x

/-- The `galaxy_data` data frame: one optional column per field that
`galaxy_morphology_art.py` ever reads or writes, plus the row count
(`len(self.galaxy_data)`).  A `none` column models "column absent",
which the script tests with `'name' in self.galaxy_data.columns`. -/
structure Table where
  nrows : ℕ
  objid : Option Column := none
  ra : Option Column := none
  dec : Option Column := none
  u : Option Column := none
  g : Option Column := none
  r : Option Column := none
  i : Option Column := none
  z : Option Column := none
  petroR50_r : Option Column := none
  petroR90_r : Option Column := none
  deVAB_r : Option Column := none
  expAB_r : Option Column := none
  petroMag_r : Option Column := none
  fracDeV_r : Option Column := none
  elliptical : Option Column := none
  spiral : Option Column := none
  dered_g : Option Column := none
  dered_r : Option Column := none
  dered_i : Option Column := none
  redshift : Option Column := none
  modelMag_r : Option Column := none
  concentration : Option Column := none
  g_r_color : Option Column := none
  r_i_color : Option Column := none
deriving DecidableEq

/-- One concentration cell: the script computes
`petroR90_r / (petroR50_r + 0.01)` elementwise. -/
def concentrationCell (r90 r50 : FVal) : FVal :=
  fdiv r90 (fadd r50 (FVal.num (1/100)))

/-- `GalaxyArtVisualizer._calculate_morphology_params`: adds the
concentration column when both radius columns are present, and the two
color-index columns when the corresponding magnitude columns are
present.  Raw columns are never modified. -/
def calculate_morphology_params (t : Table) : Table :=
  let t1 :=
    match t.petroR50_r, t.petroR90_r with
    | some c50, some c90 =>
        { t with concentration := some (List.zipWith concentrationCell c90 c50) }
    | _, _ => t
  let t2 :=
    match t1.dered_g, t1.dered_r with
    | some cg, some cr => { t1 with g_r_color := some (List.zipWith fsub cg cr) }
    | _, _ => t1
  let t3 :=
    match t2.dered_r, t2.dered_i with
    | some cr, some ci => { t2 with r_i_color := some (List.zipWith fsub cr ci) }
    | _, _ => t2
  t3

/-- The numpy global random generator after `np.random.seed(42)`,
modelled as one deterministic stream per distribution family: argument
`k` is the position in the seeded stream at which the draw happens.  A
run of the script consumes successive positions; `np.random.seed(42)`
resets the position to `0`. -/
structure NumpyRandom where
  uniformAt : ℚ → ℚ → ℕ → ℚ
  betaAt : ℚ → ℚ → ℕ → ℚ
  lognormalAt : ℚ → ℚ → ℕ → ℚ
  normalAt : ℚ → ℚ → ℕ → ℚ

/-- `np.random.uniform(lo, hi, n)` drawn at stream position `s`. -/
def sampleUniform (rng : NumpyRandom) (lo hi : ℚ) (s n : ℕ) : Column :=
  (List.range n).map (fun j => FVal.num (rng.uniformAt lo hi (s + j)))

/-- `np.random.beta(a, b, n)` drawn at stream position `s`. -/
def sampleBeta (rng : NumpyRandom) (a b : ℚ) (s n : ℕ) : Column :=
  (List.range n).map (fun j => FVal.num (rng.betaAt a b (s + j)))

/-- `np.random.lognormal(mu, sigma, n)` drawn at stream position `s`. -/
def sampleLognormal (rng : NumpyRandom) (mu sigma : ℚ) (s n : ℕ) : Column :=
  (List.range n).map (fun j => FVal.num (rng.lognormalAt mu sigma (s + j)))

/-- `np.random.normal(mu, sigma, n)` drawn at stream position `s`. -/
def sampleNormal (rng : NumpyRandom) (mu sigma : ℚ) (s n : ℕ) : Column :=
  (List.range n).map (fun j => FVal.num (rng.normalAt mu sigma (s + j)))

/-- `GalaxyArtVisualizer._generate_synthetic_data`: seeds the global
generator with 42 (discarding the incoming stream position `state`),
samples the eleven raw columns in program order, derives the
spiral/elliptical flags, and runs the derived-metrics pass.  Returns the
table together with the stream position after the call. -/
def generate_synthetic_data (rng : NumpyRandom) (state : ℕ) (n : ℕ) : Table × ℕ :=
  -- np.random.seed(42): every draw below happens in the freshly seeded
  -- stream, independently of `state`.
  let s0 : ℕ := 0
  let raCol := sampleUniform rng 148 152 s0 n
  let decCol := sampleUniform rng (4/5) (6/5) (s0 + n) n
  let redshiftCol := (sampleBeta rng 2 5 (s0 + 2*n) n).map (fun v => fmul v (FVal.num (3/10)))
  let r50Col := sampleLognormal rng 1 (1/2) (s0 + 3*n) n
  let r90Col := sampleLognormal rng (3/2) (1/2) (s0 + 4*n) n
  let fracCol := sampleBeta rng 2 2 (s0 + 5*n) n
  let magCol := sampleNormal rng 17 (3/2) (s0 + 6*n) n
  let abCol := sampleUniform rng (3/10) (9/10) (s0 + 7*n) n
  let dgCol := sampleNormal rng 18 (3/2) (s0 + 8*n) n
  let drCol := sampleNormal rng 17 (3/2) (s0 + 9*n) n
  let diCol := sampleNormal rng (33/2) (3/2) (s0 + 10*n) n
  let spiralCol := fracCol.map (fun v => FVal.num (if fltQ v (1/2) then 1 else 0))
  let ellCol := fracCol.map (fun v => FVal.num (if fgeQ v (1/2) then 1 else 0))
  let t : Table :=
    { nrows := n, ra := some raCol, dec := some decCol, redshift := some redshiftCol,
      petroR50_r := some r50Col, petroR90_r := some r90Col, fracDeV_r := some fracCol,
      modelMag_r := some magCol, expAB_r := some abCol, dered_g := some dgCol,
      dered_r := some drCol, dered_i := some diCol, spiral := some spiralCol,
      elliptical := some ellCol }
  (calculate_morphology_params t, s0 + 11*n)

/-- `GalaxyArtVisualizer._add_basic_morphology`: copies or samples
`fracDeV_r`, thresholds it into the elliptical/spiral flags, copies the
dereddened magnitudes, and estimates a redshift column from
`petroMag_r` when none is present.  Reading the absent `petroMag_r`
column raises `KeyError`, modelled by the `Except.error` result. -/
def add_basic_morphology (rng : NumpyRandom) (s : ℕ) (t : Table) :
    Except String (Table × ℕ) :=
  let fracCol :=
    match t.deVAB_r with
    | some c => c
    | none => sampleBeta rng 2 2 s t.nrows
  let s1 :=
    match t.deVAB_r with
    | some _ => s
    | none => s + t.nrows
  let t1 := { t with fracDeV_r := some fracCol,
                     elliptical := some (fracCol.map
                       (fun v => FVal.num (if fgeQ v (1/2) then 1 else 0))),
                     spiral := some (fracCol.map
                       (fun v => FVal.num (if fltQ v (1/2) then 1 else 0))) }
  let t2 :=
    match t1.g, t1.r with
    | some cg, some cr =>
        let ta := { t1 with dered_g := some cg, dered_r := some cr }
        (match ta.i with
         | some ci => { ta with dered_i := some ci }
         | none => ta)
    | _, _ => t1
  match t2.redshift with
  | some _ => Except.ok (t2, s1)
  | none =>
    match t2.petroMag_r with
    | none => Except.error "KeyError: petroMag_r"
    | some magc =>
      let magNorm := magc.map (fun m => fdiv (fsub m (FVal.num 15)) (FVal.num 5))
      let zCol := List.zipWith
        (fun b mn => fmul (fmul b (FVal.num (3/10))) (fadd (FVal.num 1) mn))
        (sampleBeta rng 2 5 s1 t2.nrows) magNorm
      Except.ok ({ t2 with redshift := some zCol }, s1 + t2.nrows)

/-- Outcome of the two HTTP requests that `fetch_galaxy_data` can make:
`testConn` is the boolean result of `_test_sdss_connection`, and
`mainResult` is the main query's outcome — `none` for a network timeout
(or transport error), `some (status, body)` for an HTTP response. -/
structure NetEnv where
  testConn : Bool
  mainResult : Option (ℕ × String)

/-- The script's HTML sniff:
`response_text.startswith('<') or 'html' in response_text.lower()[:100]`. -/
def isHtmlLike (s : String) : Bool :=
  s.startsWith "<" || ((s.toLower.take 100).splitOn "html").length > 1

/-- Dropping the SDSS `#Table1` comment line:
`lines[0].startswith('#')` selects `'\n'.join(lines[1:])`. -/
def strip_table_header (s : String) : String :=
  match s.splitOn "\n" with
  | [] => s
  | l0 :: rest => if l0.startsWith "#" then String.intercalate "\n" rest else s

/-- `GalaxyArtVisualizer.fetch_galaxy_data`: the live fetch with its
synthetic fallback.  `parse` stands for `pd.read_csv`; every failure
(connectivity-probe failure on a large request, timeout, non-200
status, HTML body, parse error, empty dataset, or a `KeyError` raised
while post-processing) is caught by the `try`/`except` chain, falls back
to `_generate_synthetic_data(limit)` and reports `False`; only a fully
successful fetch reports `True`.  The CSV dump the script writes on
success only touches the file system and is modelled separately by
`save_sdss_data_to_csv`. -/
def fetch_galaxy_data (rng : NumpyRandom) (s : ℕ) (net : NetEnv)
    (parse : String → Except String Table) (limit : ℕ) : Table × Bool :=
  if 25 < limit ∧ net.testConn = false then
    ((generate_synthetic_data rng s limit).1, false)
  else
    match net.mainResult with
    | none => ((generate_synthetic_data rng s limit).1, false)
    | some (status, body) =>
      if status = 200 then
        let response_text := body.trim
        if isHtmlLike response_text then
          ((generate_synthetic_data rng s limit).1, false)
        else
          match parse (strip_table_header response_text) with
          | Except.error _ => ((generate_synthetic_data rng s limit).1, false)
          | Except.ok gd =>
            if gd.nrows = 0 then
              ((generate_synthetic_data rng s limit).1, false)
            else
              match add_basic_morphology rng s gd with
              | Except.error _ => ((generate_synthetic_data rng s limit).1, false)
              | Except.ok (gd2, _) => (calculate_morphology_params gd2, true)
      else
        ((generate_synthetic_data rng s limit).1, false)

/-- The `(z_min, z_max)` pair that `redshift_to_color` and
`get_redshift_colormap_info` read from the current galaxy table, with
the `(0.0, 0.3)` fallback when no table or no redshift column exists. -/
def redshift_bounds (gd : Option Table) : FVal × FVal :=
  match gd with
  | some t =>
    match t.redshift with
    | some c => (colMin c, colMax c)
    | none => (FVal.num 0, FVal.num (3/10))
  | none => (FVal.num 0, FVal.num (3/10))

/-- The colormap coordinate computed by
`GalaxyArtVisualizer.redshift_to_color`:
`0.3 + np.clip((z - z_min) / (z_max - z_min), 0, 1) * 0.7`. -/
def redshift_plasma_pos (gd : Option Table) (zv : FVal) : FVal :=
  let zb := redshift_bounds gd
  let znorm := fclip (fdiv (fsub zv zb.1) (fsub zb.2 zb.1)) 0 1
  fadd (FVal.num (3/10)) (fmul znorm (FVal.num (7/10)))

/-- The row of the matplotlib colormap lookup table selected for a
coordinate `x` by `Colormap.__call__` with `N = 256` entries: `nan`
selects the bad-value row `N + 2 = 258` (default color `(0,0,0,0)`),
out-of-range coordinates select the under/over rows `256`/`257`, and an
in-range coordinate selects `int(x * N)` (with `x * N == N` mapped back
to `N - 1`).  Rows `0..255` are the actual plasma colors, in colormap
order. -/
def cmapLookupIndex : FVal → ℕ
  | .nan => 258
  | .pinf => 257
  | .ninf => 256
  | .num q =>
    let s : ℚ := q * 256
    if s = 256 then 255
    else if 255 < ⌊s⌋ then 257
    else if ⌊s⌋ < 0 then 256
    else (⌊s⌋).toNat

/-- `GalaxyArtVisualizer.redshift_to_color` for a single value, returned
as the selected colormap lookup row (the rendered color is the RGBA
entry stored at that row). -/
def redshift_to_color (gd : Option Table) (zv : FVal) : ℕ :=
  cmapLookupIndex (redshift_plasma_pos gd zv)

/-- `GalaxyArtVisualizer._save_sdss_data_to_csv`: the `to_csv` call is
wrapped in `try`/`except Exception`, so a failing write (`csvWrite =
Except.error e`) only logs a warning; the in-memory table is returned
unchanged either way. -/
def save_sdss_data_to_csv (csvWrite : Except String Unit) (t : Table) :
    Table × List String :=
  match csvWrite with
  | Except.ok _ => (t, ["SDSS data saved"])
  | Except.error e =>
      (t, ["Warning: Failed to save SDSS data to CSV: " ++ e,
           "Visualization will continue with the data in memory"])

/-- `GalaxyArtVisualizer.save_visualizations`: saves the two figures and
then writes the plain-text summary.  None of the three writes is inside
a `try`/`except`, so a failing write surfaces as an uncaught exception
(`Except.error`); the summary is only written when `galaxy_data` is not
`None`.  The function never mutates the table. -/
def save_visualizations (fig1Save fig2Save summaryWrite : Except String Unit)
    (gd : Option Table) : Except String (Option Table) :=
  match fig1Save with
  | Except.error e => Except.error e
  | Except.ok _ =>
    match fig2Save with
    | Except.error e => Except.error e
    | Except.ok _ =>
      match gd with
      | some t =>
        match summaryWrite with
        | Except.error e => Except.error e
        | Except.ok _ => Except.ok (some t)
      | none => Except.ok none

/-- One tracked satellite: `posAt` is `EarthSatellite.at`, which either
returns geocentric kilometre coordinates or raises. -/
structure Satellite where
  posAt : ℕ → Except String (ℚ × ℚ × ℚ)

/-- `SatelliteVisualizer.calculate_satellite_position`: wraps the
position computation in `try`/`except` and returns
`(None, None, None)` when it raises. -/
def calculate_satellite_position (sat : Satellite) (t : ℕ) :
    Option ℚ × Option ℚ × Option ℚ :=
  match sat.posAt t with
  | Except.ok (x, y, zc) => (some x, some y, some zc)
  | Except.error _ => (none, none, none)

/-- The animation state owned by the tick loop: the displayed point of
each satellite (`satellite_points[name].set_data`), the bounded trail
deque (`satellite_trails[name]`), and the displayed trail line
(`trail_lines[name].set_data`). -/
structure AnimState where
  points : String → Option (ℚ × ℚ)
  trails : String → List (ℚ × ℚ)
  trailLines : String → List (ℚ × ℚ)

/-- `collections.deque(maxlen=maxlen).append`: the new point goes on the
right and elements are dropped from the left until at most `maxlen`
remain. -/
def deque_append (maxlen : ℕ) (q : List (ℚ × ℚ)) (p : ℚ × ℚ) : List (ℚ × ℚ) :=
  let q2 := q ++ [p]
  q2.drop (q2.length - maxlen)

/-- The body of the per-satellite loop inside
`SatelliteVisualizer.update_animation`: when the position computation
yields coordinates, the displayed point is moved, the point is appended
to the bounded trail, and the trail line is redrawn once the trail has
more than one point; otherwise everything about this satellite is left
untouched.  The boolean reports whether `active_satellites` was
incremented. -/
def update_one_satellite (m : ℕ) (t : ℕ) (st : AnimState) (name : String)
    (sat : Satellite) : AnimState × Bool :=
  match calculate_satellite_position sat t with
  | (some x, some y, _) =>
    let newTrail := deque_append m (st.trails name) (x, y)
    ({ points := fun n => if n = name then some (x, y) else st.points n,
       trails := fun n => if n = name then newTrail else st.trails n,
       trailLines := fun n =>
         if n = name then (if 1 < newTrail.length then newTrail else st.trailLines n)
         else st.trailLines n }, true)
  | _ => (st, false)

/-- One step of the fold over `self.satellites.items()` performed by a
tick, threading the state and the `active_satellites` counter. -/
def anim_step (m : ℕ) (t : ℕ) (acc : AnimState × ℕ) (p : String × Satellite) :
    AnimState × ℕ :=
  let r := update_one_satellite m t acc.1 p.1 p.2
  (r.1, acc.2 + (if r.2 then 1 else 0))

/-- `SatelliteVisualizer.update_animation`: one timer tick over the
satellite dictionary with trail capacity `m`, returning the new state
and the number of satellites whose position was obtained. -/
def update_animation (m : ℕ) (sats : List (String × Satellite)) (t : ℕ)
    (st : AnimState) : AnimState × ℕ :=
  sats.foldl (anim_step m t) (st, 0)

/-- Predicate for claim C2: the column is present, has exactly `n`
entries, and every entry is a finite number (pandas would report no
missing value in it). -/
def colFilled (n : ℕ) : Option Column → Prop
  | some c => c.length = n ∧ ∀ v ∈ c, ∃ q : ℚ, v = FVal.num q
  | none => False

/-- The columns the synthetic generator is required to populate: the
eleven sampled raw fields, the two morphology flags, and the three
derived metrics. -/
def requiredColsFilled (n : ℕ) (t : Table) : Prop :=
  colFilled n t.ra ∧ colFilled n t.dec ∧ colFilled n t.redshift ∧
  colFilled n t.petroR50_r ∧ colFilled n t.petroR90_r ∧ colFilled n t.fracDeV_r ∧
  colFilled n t.modelMag_r ∧ colFilled n t.expAB_r ∧ colFilled n t.dered_g ∧
  colFilled n t.dered_r ∧ colFilled n t.dered_i ∧ colFilled n t.spiral ∧
  colFilled n t.elliptical ∧ colFilled n t.concentration ∧
  colFilled n t.g_r_color ∧ colFilled n t.r_i_color

/-- A concrete sampling family used by the witnesses. -/
def rngW : NumpyRandom :=
  { uniformAt := fun _ _ _ => 0, betaAt := fun _ _ _ => 0,
    lognormalAt := fun _ _ _ => 1, normalAt := fun _ _ _ => 0 }

/-- A network environment whose main request times out. -/
def netTimeoutW : NetEnv := { testConn := true, mainResult := none }

/-- A parser that always fails, used only to instantiate witnesses. -/
def parseFailW : String → Except String Table := fun _ => Except.error "parse error"

/-- A one-row table with `petroR50_r = [1.0]` and `petroR90_r = [3.0]`. -/
def radiiTableW : Table :=
  { nrows := 1, petroR50_r := some [FVal.num 1], petroR90_r := some [FVal.num 3] }

/-- A one-row table whose redshift column is the single value `0.1`. -/
def oneRowTableW : Table := { nrows := 1, redshift := some [FVal.num (1/10)] }

/-- A two-row table with the distinct redshift values `0.1` and `0.2`. -/
def twoRowTableW : Table :=
  { nrows := 2, redshift := some [FVal.num (1/10), FVal.num (2/10)] }

/-- A satellite whose position computation always raises. -/
def failSatW : Satellite := { posAt := fun _ => Except.error "propagation error" }

/-- A concrete animation state used by the witnesses. -/
def animStateW : AnimState :=
  { points := fun _ => none, trails := fun _ => [(1, 2), (3, 4)],
    trailLines := fun _ => [] }

/-! ## Helper lemmas -/

theorem zipWith_getElem_some {α β γ : Type} (f : α → β → γ) :
    ∀ (as : List α) (bs : List β) (k : ℕ) (a : α) (b : β),
      as[k]? = some a → bs[k]? = some b →
      (List.zipWith f as bs)[k]? = some (f a b) := by
  intro as
  induction as with
  | nil => intro bs k a b ha _; simp at ha
  | cons x xs ih =>
    intro bs k a b ha hb
    cases bs with
    | nil => simp at hb
    | cons y ys =>
      cases k with
      | zero =>
        simp only [List.getElem?_cons_zero, Option.some_inj] at ha hb
        simp [List.zipWith, ha, hb]
      | succ k2 =>
        simp only [List.getElem?_cons_succ] at ha hb
        simpa [List.zipWith] using ih ys k2 a b ha hb

theorem mem_zipWith_elim {α β γ : Type} (f : α → β → γ) :
    ∀ (l1 : List α) (l2 : List β) (v : γ), v ∈ List.zipWith f l1 l2 →
      ∃ a, a ∈ l1 ∧ ∃ b, b ∈ l2 ∧ v = f a b := by
  intro l1
  induction l1 with
  | nil => intro l2 v hv; simp at hv
  | cons x xs ih =>
    intro l2 v hv
    cases l2 with
    | nil => simp at hv
    | cons y ys =>
      simp only [List.zipWith, List.mem_cons] at hv
      rcases hv with hv | hv
      · exact ⟨x, by simp, y, by simp, hv⟩
      · rcases ih ys v hv with ⟨a, hal, b, hbl, hab⟩
        exact ⟨a, by simp [hal], b, by simp [hbl], hab⟩

theorem foldl_fminTwo_num_spec :
    ∀ (l : List FVal), (∀ v ∈ l, ∃ q : ℚ, v = FVal.num q) → ∀ a : ℚ,
      ∃ m : ℚ, l.foldl fminTwo (FVal.num a) = FVal.num m ∧ m ≤ a ∧
        ∀ q : ℚ, FVal.num q ∈ l → m ≤ q := by
  intro l
  induction l with
  | nil => intro _ a; exact ⟨a, rfl, le_refl a, by simp⟩
  | cons v vs ih =>
    intro hnum a
    rcases hnum v (by simp) with ⟨b, rfl⟩
    have hstep : fminTwo (FVal.num a) (FVal.num b) = FVal.num (min a b) := rfl
    rcases ih (fun w hw => hnum w (by simp [hw])) (min a b) with ⟨m, hm, hma, hall⟩
    refine ⟨m, by simpa [List.foldl, hstep] using hm,
      le_trans hma (min_le_left a b), ?_⟩
    intro q hq
    rcases List.mem_cons.mp hq with hq | hq
    · have : q = b := by
        have := FVal.num.injEq q b ▸ hq
        simpa using hq
      exact this ▸ le_trans hma (min_le_right a b)
    · exact hall q hq

theorem foldl_fmaxTwo_num_spec :
    ∀ (l : List FVal), (∀ v ∈ l, ∃ q : ℚ, v = FVal.num q) → ∀ a : ℚ,
      ∃ m : ℚ, l.foldl fmaxTwo (FVal.num a) = FVal.num m ∧ a ≤ m ∧
        ∀ q : ℚ, FVal.num q ∈ l → q ≤ m := by
  intro l
  induction l with
  | nil => intro _ a; exact ⟨a, rfl, le_refl a, by simp⟩
  | cons v vs ih =>
    intro hnum a
    rcases hnum v (by simp) with ⟨b, rfl⟩
    have hstep : fmaxTwo (FVal.num a) (FVal.num b) = FVal.num (max a b) := rfl
    rcases ih (fun w hw => hnum w (by simp [hw])) (max a b) with ⟨m, hm, hma, hall⟩
    refine ⟨m, by simpa [List.foldl, hstep] using hm,
      le_trans (le_max_left a b) hma, ?_⟩
    intro q hq
    rcases List.mem_cons.mp hq with hq | hq
    · have : q = b := by simpa using hq
      exact this ▸ le_trans (le_max_right a b) hma
    · exact hall q hq

theorem all_num_filter_notNan (c : Column)
    (hnum : ∀ v ∈ c, ∃ q : ℚ, v = FVal.num q) : c.filter notNan = c := by
  refine List.filter_eq_self.mpr ?_
  intro v hv
  rcases hnum v hv with ⟨q, rfl⟩
  rfl

theorem colMin_num_spec (c : Column) (hnum : ∀ v ∈ c, ∃ q : ℚ, v = FVal.num q)
    (hne : c ≠ []) :
    ∃ m : ℚ, colMin c = FVal.num m ∧ ∀ q : ℚ, FVal.num q ∈ c → m ≤ q := by
  unfold colMin
  rw [all_num_filter_notNan c hnum]
  cases c with
  | nil => exact absurd rfl hne
  | cons x xs =>
    rcases hnum x (by simp) with ⟨a, rfl⟩
    rcases foldl_fminTwo_num_spec xs (fun w hw => hnum w (by simp [hw])) a with
      ⟨m, hm, hma, hall⟩
    refine ⟨m, hm, ?_⟩
    intro q hq
    rcases List.mem_cons.mp hq with hq | hq
    · have : q = a := by simpa using hq
      exact this ▸ hma
    · exact hall q hq

theorem colMax_num_spec (c : Column) (hnum : ∀ v ∈ c, ∃ q : ℚ, v = FVal.num q)
    (hne : c ≠ []) :
    ∃ m : ℚ, colMax c = FVal.num m ∧ ∀ q : ℚ, FVal.num q ∈ c → q ≤ m := by
  unfold colMax
  rw [all_num_filter_notNan c hnum]
  cases c with
  | nil => exact absurd rfl hne
  | cons x xs =>
    rcases hnum x (by simp) with ⟨a, rfl⟩
    rcases foldl_fmaxTwo_num_spec xs (fun w hw => hnum w (by simp [hw])) a with
      ⟨m, hm, hma, hall⟩
    refine ⟨m, hm, ?_⟩
    intro q hq
    rcases List.mem_cons.mp hq with hq | hq
    · have : q = a := by simpa using hq
      exact this ▸ hma
    · exact hall q hq

theorem foldl_fminTwo_const (z0 : ℚ) :
    ∀ l : List FVal, (∀ v ∈ l, v = FVal.num z0) →
      l.foldl fminTwo (FVal.num z0) = FVal.num z0 := by
  intro l
  induction l with
  | nil => intro _; rfl
  | cons v vs ih =>
    intro hall
    have hv : v = FVal.num z0 := hall v (by simp)
    have hstep : fminTwo (FVal.num z0) (FVal.num z0) = FVal.num z0 := by
      simp [fminTwo]
    subst hv
    simpa [List.foldl, hstep] using ih (fun w hw => hall w (by simp [hw]))

theorem foldl_fmaxTwo_const (z0 : ℚ) :
    ∀ l : List FVal, (∀ v ∈ l, v = FVal.num z0) →
      l.foldl fmaxTwo (FVal.num z0) = FVal.num z0 := by
  intro l
  induction l with
  | nil => intro _; rfl
  | cons v vs ih =>
    intro hall
    have hv : v = FVal.num z0 := hall v (by simp)
    have hstep : fmaxTwo (FVal.num z0) (FVal.num z0) = FVal.num z0 := by
      simp [fmaxTwo]
    subst hv
    simpa [List.foldl, hstep] using ih (fun w hw => hall w (by simp [hw]))

theorem colMin_const (c : Column) (z0 : ℚ) (hne : c ≠ [])
    (hall : ∀ v ∈ c, v = FVal.num z0) : colMin c = FVal.num z0 := by
  unfold colMin
  rw [all_num_filter_notNan c (fun v hv => ⟨z0, hall v hv⟩)]
  cases c with
  | nil => exact absurd rfl hne
  | cons x xs =>
    have hx : x = FVal.num z0 := hall x (by simp)
    subst hx
    exact foldl_fminTwo_const z0 xs (fun w hw => hall w (by simp [hw]))

theorem colMax_const (c : Column) (z0 : ℚ) (hne : c ≠ [])
    (hall : ∀ v ∈ c, v = FVal.num z0) : colMax c = FVal.num z0 := by
  unfold colMax
  rw [all_num_filter_notNan c (fun v hv => ⟨z0, hall v hv⟩)]
  cases c with
  | nil => exact absurd rfl hne
  | cons x xs =>
    have hx : x = FVal.num z0 := hall x (by simp)
    subst hx
    exact foldl_fmaxTwo_const z0 xs (fun w hw => hall w (by simp [hw]))

theorem calc_morph_concentration (t : Table) (c50 c90 : Column)
    (h50 : t.petroR50_r = some c50) (h90 : t.petroR90_r = some c90) :
    (calculate_morphology_params t).concentration =
      some (List.zipWith concentrationCell c90 c50) := by
  rcases hdg : t.dered_g with _ | cg <;> rcases hdr : t.dered_r with _ | cr <;>
    rcases hdi : t.dered_i with _ | ci <;>
      simp [calculate_morphology_params, h50, h90, hdg, hdr, hdi]

/-! ## Claims -/

/-- Claim C3: the derived-metrics computation
`_calculate_morphology_params` is idempotent — applying it twice to any
Observation table yields the same table as applying it once, because the
derived columns are recomputed from raw columns that the pass never
modifies. -/
theorem morphology_params_idempotent (t : Table) :
    calculate_morphology_params (calculate_morphology_params t) =
      calculate_morphology_params t := by
  rcases t with ⟨nr, o, ra, dec, u, g, r, i, z, p50, p90, dv, ab, pm, fd, el, sp,
    dg, dr, di, rs, mm, co, gr, ri⟩
  rcases p50 with _ | c50 <;> rcases p90 with _ | c90 <;> rcases dg with _ | cg <;>
    rcases dr with _ | cr <;> rcases di with _ | ci <;> rfl

/-- Claim C4 (amended): each cell of the derived concentration column is
`petroR90_r / (petroR50_r + 0.01)` — the 0.01 floor on the denominator
means it is not the plain quotient `petroR90_r / petroR50_r` that the
claim states. -/
theorem concentration_denominator_floored (t : Table) (c50 c90 : Column) (k : ℕ)
    (a b : FVal) (h50 : t.petroR50_r = some c50) (h90 : t.petroR90_r = some c90)
    (ha : c90[k]? = some a) (hb : c50[k]? = some b) :
    ∃ cc : Column, (calculate_morphology_params t).concentration = some cc ∧
      cc[k]? = some (fdiv a (fadd b (FVal.num (1/100)))) := by
  refine ⟨List.zipWith concentrationCell c90 c50,
    calc_morph_concentration t c50 c90 h50 h90, ?_⟩
  rw [zipWith_getElem_some concentrationCell c90 c50 k a b ha hb]
  rfl

/-- Witness for C4's amended theorem: on the one-row table with
`petroR50_r = [1]` and `petroR90_r = [3]` the concentration cell is
`3 / (1 + 0.01)`. -/
theorem concentration_denominator_floored_witness :
    ∃ cc : Column, (calculate_morphology_params radiiTableW).concentration = some cc ∧
      cc[0]? = some (fdiv (FVal.num 3) (fadd (FVal.num 1) (FVal.num (1/100)))) :=
  concentration_denominator_floored radiiTableW [FVal.num 1] [FVal.num 3] 0
    (FVal.num 3) (FVal.num 1) rfl rfl rfl rfl

/-- Counterexample to claim C4 as stated: with `petroR50_r = 1` and
`petroR90_r = 3` the code produces the concentration `300/101 ≈ 2.970`,
whereas `petroR90_r / petroR50_r = 3`. -/
theorem concentration_not_plain_quotient :
    (calculate_morphology_params radiiTableW).concentration =
        some [FVal.num (300/101)] ∧
      FVal.num (300/101) ≠ fdiv (FVal.num 3) (FVal.num 1) := by
  constructor
  · norm_num [calculate_morphology_params, radiiTableW, concentrationCell, fdiv, fadd]
  · norm_num [fdiv]

/-- Claim C5: for non-negative radius inputs the concentration cell is a
finite number, it is non-negative, and the floored denominator
`petroR50_r + 0.01` is strictly positive, so the division by zero is
unreachable. -/
theorem concentration_nonneg_finite (a b : ℚ) (ha : 0 ≤ a) (hb : 0 ≤ b) :
    ∃ q : ℚ, concentrationCell (FVal.num a) (FVal.num b) = FVal.num q ∧
      0 ≤ q ∧ 0 < b + 1/100 := by
  have hpos : (0:ℚ) < b + 1/100 := by linarith
  refine ⟨a / (b + 1/100), ?_, div_nonneg ha (le_of_lt hpos), hpos⟩
  simp only [concentrationCell, fadd, fdiv]
  rw [if_neg hpos.ne']

/-- Witness for C5 at the radii `petroR90_r = 3`, `petroR50_r = 1`. -/
theorem concentration_nonneg_finite_witness :
    ∃ q : ℚ, concentrationCell (FVal.num 3) (FVal.num 1) = FVal.num q ∧
      0 ≤ q ∧ 0 < (1 : ℚ) + 1/100 :=
  concentration_nonneg_finite 3 1 (by norm_num) (by norm_num)

theorem cmapLookupIndex_mono_unit (p1 p2 : ℚ) (h0 : 0 ≤ p1) (h12 : p1 ≤ p2)
    (h1 : p2 ≤ 1) : cmapLookupIndex (FVal.num p1) ≤ cmapLookupIndex (FVal.num p2) := by
  have hs0 : (0:ℚ) ≤ p1 * 256 := mul_nonneg h0 (by norm_num)
  have hs12 : p1 * 256 ≤ p2 * 256 := mul_le_mul_of_nonneg_right h12 (by norm_num)
  have hs1 : p2 * 256 ≤ 256 := by nlinarith
  simp only [cmapLookupIndex]
  by_cases e2 : p2 * 256 = 256
  · rw [if_pos e2]
    by_cases e1 : p1 * 256 = 256
    · rw [if_pos e1]
    · have h1lt : p1 * 256 < 256 := lt_of_le_of_ne (le_trans hs12 (le_of_eq e2)) e1
      have f1 : (0:ℤ) ≤ ⌊p1 * 256⌋ := Int.le_floor.mpr (by exact_mod_cast hs0)
      have g1 : ⌊p1 * 256⌋ < 256 := Int.floor_lt.mpr (by exact_mod_cast h1lt)
      rw [if_neg e1, if_neg (by omega), if_neg (by omega)]
      exact Int.toNat_le.mpr (by omega)
  · have h2lt : p2 * 256 < 256 := lt_of_le_of_ne hs1 e2
    have h1lt : p1 * 256 < 256 := lt_of_le_of_lt hs12 h2lt
    have e1 : p1 * 256 ≠ 256 := ne_of_lt h1lt
    have f1 : (0:ℤ) ≤ ⌊p1 * 256⌋ := Int.le_floor.mpr (by exact_mod_cast hs0)
    have f12 : ⌊p1 * 256⌋ ≤ ⌊p2 * 256⌋ := Int.floor_le_floor hs12
    have g1 : ⌊p1 * 256⌋ < 256 := Int.floor_lt.mpr (by exact_mod_cast h1lt)
    have g2 : ⌊p2 * 256⌋ < 256 := Int.floor_lt.mpr (by exact_mod_cast h2lt)
    rw [if_neg e1, if_neg e2, if_neg (by omega), if_neg (by omega),
        if_neg (by omega), if_neg (by omega)]
    exact Int.toNat_le_toNat f12

theorem redshift_plasma_pos_num (t : Table) (c : Column) (m M : ℚ)
    (hc : t.redshift = some c) (hmin : colMin c = FVal.num m)
    (hmax : colMax c = FVal.num M) (hMm : M - m ≠ 0) (zq : ℚ) :
    redshift_plasma_pos (some t) (FVal.num zq) =
      FVal.num (3/10 + (min 1 (max 0 ((zq - m) / (M - m)))) * (7/10)) := by
  simp only [redshift_plasma_pos, redshift_bounds, hc, fsub, fdiv, hmin, hmax]
  rw [if_neg hMm]
  rfl

/-- Claim C6 (amended): provided the galaxy table's redshift column
holds at least two distinct finite values, `redshift_to_color` is
monotone non-decreasing in its input redshift (as an index into the
colormap's lookup table, which is ordered by colormap position), and
repeated calls with the same data-range context return the same color.
With an all-equal column the normalization divides by zero and the
mapping leaves the colormap range (see the degenerate-case theorem). -/
theorem redshift_color_monotone (t : Table) (c : Column) (z1 z2 : ℚ)
    (hc : t.redshift = some c)
    (hnum : ∀ v ∈ c, ∃ q : ℚ, v = FVal.num q)
    (htwo : ∃ v w, v ∈ c ∧ w ∈ c ∧ v ≠ w)
    (hz : z1 ≤ z2) :
    redshift_to_color (some t) (FVal.num z1) ≤ redshift_to_color (some t) (FVal.num z2) ∧
      redshift_to_color (some t) (FVal.num z1) = redshift_to_color (some t) (FVal.num z1) := by
  have hneC : c ≠ [] := by
    rcases htwo with ⟨v, _, hv, _, _⟩
    exact List.ne_nil_of_mem hv
  rcases colMin_num_spec c hnum hneC with ⟨m, hmin, hminLe⟩
  rcases colMax_num_spec c hnum hneC with ⟨M, hmax, hmaxGe⟩
  have hmM : m < M := by
    rcases htwo with ⟨v, w, hv, hw, hvw⟩
    rcases hnum v hv with ⟨a, rfl⟩
    rcases hnum w hw with ⟨b, rfl⟩
    have hab : a ≠ b := fun h => hvw (by rw [h])
    rcases lt_or_gt_of_ne hab with h | h
    · exact lt_of_le_of_lt (hminLe a hv) (lt_of_lt_of_le h (hmaxGe b hw))
    · exact lt_of_le_of_lt (hminLe b hw) (lt_of_lt_of_le h (hmaxGe a hv))
  have hMm : M - m ≠ 0 := sub_ne_zero.mpr (ne_of_gt hmM)
  have hpos : (0:ℚ) < M - m := sub_pos.mpr hmM
  refine ⟨?_, rfl⟩
  rw [redshift_to_color, redshift_to_color,
      redshift_plasma_pos_num t c m M hc hmin hmax hMm z1,
      redshift_plasma_pos_num t c m M hc hmin hmax hMm z2]
  have hw12 : min 1 (max 0 ((z1 - m) / (M - m))) ≤ min 1 (max 0 ((z2 - m) / (M - m))) := by
    refine min_le_min le_rfl (max_le_max le_rfl ?_)
    exact (div_le_div_iff_of_pos_right hpos).mpr (by linarith)
  have hw1lo : (0:ℚ) ≤ min 1 (max 0 ((z1 - m) / (M - m))) :=
    le_min (by norm_num) (le_max_left 0 _)
  have hw2hi : min 1 (max 0 ((z2 - m) / (M - m))) ≤ 1 := min_le_left 1 _
  refine cmapLookupIndex_mono_unit _ _ ?_ (by linarith) (by nlinarith)
  have := mul_nonneg hw1lo (by norm_num : (0:ℚ) ≤ 7/10)
  linarith

/-- Witness for C6's amended theorem on a two-row table with redshifts
`0.1` and `0.2`, at the inputs `z1 = 0`, `z2 = 1`. -/
theorem redshift_color_monotone_witness :
    redshift_to_color (some twoRowTableW) (FVal.num 0) ≤
        redshift_to_color (some twoRowTableW) (FVal.num 1) ∧
      redshift_to_color (some twoRowTableW) (FVal.num 0) =
        redshift_to_color (some twoRowTableW) (FVal.num 0) := by
  refine redshift_color_monotone twoRowTableW
    [FVal.num (1/10), FVal.num (2/10)] 0 1 rfl ?_ ?_ (by norm_num)
  · intro v hv
    rcases List.mem_cons.mp hv with h | h
    · exact ⟨1/10, h⟩
    · exact ⟨2/10, by simpa using h⟩
  · refine ⟨FVal.num (1/10), FVal.num (2/10), by simp, by simp, ?_⟩
    simp only [ne_eq, FVal.num.injEq]
    norm_num

/-- Counterexample to claim C6 as stated: on a table whose redshift
column holds the single value `0.1` the mapping is not monotone — the
input `0.1` lands on the out-of-range bad-value row 258 while the larger
input `0.2` lands on the in-range row 255. -/
theorem redshift_color_constant_column_not_monotone :
    (1/10 : ℚ) ≤ 2/10 ∧
      redshift_to_color (some oneRowTableW) (FVal.num (1/10)) = 258 ∧
      redshift_to_color (some oneRowTableW) (FVal.num (2/10)) = 255 ∧
      ¬ (258 : ℕ) ≤ 255 := by
  refine ⟨by norm_num, ?_, ?_, by norm_num⟩ <;>
    norm_num [redshift_to_color, redshift_plasma_pos, redshift_bounds, oneRowTableW,
      colMin, colMax, List.filter, notNan, fsub, fdiv, fadd, fmul, fclip, cmapLookupIndex]

/-- Claim C10: when every redshift value in the galaxy table equals the
same number `z0` (for example a one-row table), the normalization in
`redshift_to_color` divides by zero (`z_max - z_min = 0`), the colormap
coordinate becomes NaN, and the call selects the out-of-range bad-value
row 258 of the colormap lookup table (whose default entry `(0,0,0,0)`
is not one of the 256 colormap colors). -/
theorem redshift_color_degenerate (t : Table) (c : Column) (z0 : ℚ)
    (hc : t.redshift = some c) (hne : c ≠ []) (hall : ∀ v ∈ c, v = FVal.num z0) :
    fsub (redshift_bounds (some t)).2 (redshift_bounds (some t)).1 = FVal.num 0 ∧
      redshift_plasma_pos (some t) (FVal.num z0) = FVal.nan ∧
      redshift_to_color (some t) (FVal.num z0) = 258 ∧
      256 ≤ redshift_to_color (some t) (FVal.num z0) := by
  have hmin := colMin_const c z0 hne hall
  have hmax := colMax_const c z0 hne hall
  have hb : redshift_bounds (some t) = (FVal.num z0, FVal.num z0) := by
    simp [redshift_bounds, hc, hmin, hmax]
  have h1 : fsub (redshift_bounds (some t)).2 (redshift_bounds (some t)).1 = FVal.num 0 := by
    rw [hb]
    simp [fsub]
  have h2 : redshift_plasma_pos (some t) (FVal.num z0) = FVal.nan := by
    simp [redshift_plasma_pos, hb, fsub, fdiv, fclip, fmul, fadd]
  have h3 : redshift_to_color (some t) (FVal.num z0) = 258 := by
    rw [redshift_to_color, h2]
    rfl
  exact ⟨h1, h2, h3, by omega⟩

theorem colFilled_map_range (n : ℕ) (f : ℕ → ℚ) :
    colFilled n (some ((List.range n).map (fun j => FVal.num (f j)))) := by
  refine ⟨by simp, ?_⟩
  intro v hv
  rcases List.mem_map.mp hv with ⟨j, _, h⟩
  exact ⟨f j, h.symm⟩

theorem colFilled_sampleUniform (rng : NumpyRandom) (lo hi : ℚ) (s n : ℕ) :
    colFilled n (some (sampleUniform rng lo hi s n)) :=
  colFilled_map_range n (fun j => rng.uniformAt lo hi (s + j))

theorem colFilled_sampleBeta (rng : NumpyRandom) (a b : ℚ) (s n : ℕ) :
    colFilled n (some (sampleBeta rng a b s n)) :=
  colFilled_map_range n (fun j => rng.betaAt a b (s + j))

theorem colFilled_sampleLognormal (rng : NumpyRandom) (mu sigma : ℚ) (s n : ℕ) :
    colFilled n (some (sampleLognormal rng mu sigma s n)) :=
  colFilled_map_range n (fun j => rng.lognormalAt mu sigma (s + j))

theorem colFilled_sampleNormal (rng : NumpyRandom) (mu sigma : ℚ) (s n : ℕ) :
    colFilled n (some (sampleNormal rng mu sigma s n)) :=
  colFilled_map_range n (fun j => rng.normalAt mu sigma (s + j))

theorem colFilled_fmul_scalar (n : ℕ) (c : Column) (q : ℚ)
    (h : colFilled n (some c)) :
    colFilled n (some (c.map (fun v => fmul v (FVal.num q)))) := by
  rcases h with ⟨hl, hall⟩
  refine ⟨by simpa using hl, ?_⟩
  intro v hv
  rcases List.mem_map.mp hv with ⟨w, hw, h⟩
  rcases hall w hw with ⟨a, rfl⟩
  exact ⟨a * q, h.symm⟩

theorem colFilled_map_num (n : ℕ) (c : Column) (g : FVal → ℚ)
    (hl : c.length = n) :
    colFilled n (some (c.map (fun v => FVal.num (g v)))) := by
  refine ⟨by simpa using hl, ?_⟩
  intro v hv
  rcases List.mem_map.mp hv with ⟨w, _, h⟩
  exact ⟨g w, h.symm⟩

theorem colFilled_fsub_zip (n : ℕ) (c1 c2 : Column)
    (h1 : colFilled n (some c1)) (h2 : colFilled n (some c2)) :
    colFilled n (some (List.zipWith fsub c1 c2)) := by
  rcases h1 with ⟨hl1, hall1⟩
  rcases h2 with ⟨hl2, hall2⟩
  refine ⟨by simp [List.length_zipWith, hl1, hl2], ?_⟩
  intro v hv
  rcases mem_zipWith_elim fsub c1 c2 v hv with ⟨a, ha, b, hb, rfl⟩
  rcases hall1 a ha with ⟨qa, rfl⟩
  rcases hall2 b hb with ⟨qb, rfl⟩
  exact ⟨qa - qb, rfl⟩

theorem sampleLognormal_pos (rng : NumpyRandom) (mu sigma : ℚ) (s n : ℕ)
    (hlog : ∀ a b k, 0 < rng.lognormalAt a b k) :
    ∀ v ∈ sampleLognormal rng mu sigma s n, ∃ q : ℚ, v = FVal.num q ∧ 0 < q := by
  intro v hv
  rcases List.mem_map.mp hv with ⟨j, _, h⟩
  exact ⟨rng.lognormalAt mu sigma (s + j), h.symm, hlog mu sigma (s + j)⟩

theorem colFilled_concentration (n : ℕ) (c90 c50 : Column)
    (h90 : colFilled n (some c90)) (h50len : c50.length = n)
    (h50pos : ∀ v ∈ c50, ∃ q : ℚ, v = FVal.num q ∧ 0 < q) :
    colFilled n (some (List.zipWith concentrationCell c90 c50)) := by
  rcases h90 with ⟨hl90, hall90⟩
  refine ⟨by simp [List.length_zipWith, hl90, h50len], ?_⟩
  intro v hv
  rcases mem_zipWith_elim concentrationCell c90 c50 v hv with ⟨a, ha, b, hb, rfl⟩
  rcases hall90 a ha with ⟨qa, rfl⟩
  rcases h50pos b hb with ⟨qb, rfl, hqb⟩
  have hpos : (0:ℚ) < qb + 1/100 := by linarith
  refine ⟨qa / (qb + 1/100), ?_⟩
  simp only [concentrationCell, fadd, fdiv]
  rw [if_neg hpos.ne']

/-- Claim C2: for every row count `n ≥ 1` the synthetic generator is
deterministic — its output does not depend on the incoming state of the
global random generator, because `np.random.seed(42)` resets it, so two
runs with the same `n` produce identical tables — and it produces a
table with exactly `n` rows in which every required raw, flag and
derived column is present, has `n` entries and holds no missing value.
(The lognormal radius draws are positive, as the distribution's support
dictates, which keeps the derived concentration column finite.) -/
theorem synthetic_generator_deterministic_complete (rng : NumpyRandom)
    (s1 s2 n : ℕ) (hn : 1 ≤ n)
    (hlog : ∀ mu sigma k, 0 < rng.lognormalAt mu sigma k) :
    (generate_synthetic_data rng s1 n).1 = (generate_synthetic_data rng s2 n).1 ∧
      (generate_synthetic_data rng s1 n).1.nrows = n ∧
      requiredColsFilled n (generate_synthetic_data rng s1 n).1 := by
  refine ⟨rfl, rfl, ?_⟩
  simp only [generate_synthetic_data, calculate_morphology_params, requiredColsFilled]
  exact ⟨colFilled_sampleUniform rng 148 152 0 n,
    colFilled_sampleUniform rng (4/5) (6/5) (0 + n) n,
    colFilled_fmul_scalar n _ (3/10) (colFilled_sampleBeta rng 2 5 (0 + 2*n) n),
    colFilled_sampleLognormal rng 1 (1/2) (0 + 3*n) n,
    colFilled_sampleLognormal rng (3/2) (1/2) (0 + 4*n) n,
    colFilled_sampleBeta rng 2 2 (0 + 5*n) n,
    colFilled_sampleNormal rng 17 (3/2) (0 + 6*n) n,
    colFilled_sampleUniform rng (3/10) (9/10) (0 + 7*n) n,
    colFilled_sampleNormal rng 18 (3/2) (0 + 8*n) n,
    colFilled_sampleNormal rng 17 (3/2) (0 + 9*n) n,
    colFilled_sampleNormal rng (33/2) (3/2) (0 + 10*n) n,
    colFilled_map_num n _ (fun v => if fltQ v (1/2) then 1 else 0)
      (colFilled_sampleBeta rng 2 2 (0 + 5*n) n).1,
    colFilled_map_num n _ (fun v => if fgeQ v (1/2) then 1 else 0)
      (colFilled_sampleBeta rng 2 2 (0 + 5*n) n).1,
    colFilled_concentration n _ _
      (colFilled_sampleLognormal rng (3/2) (1/2) (0 + 4*n) n)
      (colFilled_sampleLognormal rng 1 (1/2) (0 + 3*n) n).1
      (sampleLognormal_pos rng 1 (1/2) (0 + 3*n) n hlog),
    colFilled_fsub_zip n _ _
      (colFilled_sampleNormal rng 18 (3/2) (0 + 8*n) n)
      (colFilled_sampleNormal rng 17 (3/2) (0 + 9*n) n),
    colFilled_fsub_zip n _ _
      (colFilled_sampleNormal rng 17 (3/2) (0 + 9*n) n)
      (colFilled_sampleNormal rng (33/2) (3/2) (0 + 10*n) n)⟩

/-- Witness for C2 at `n = 1` with two different incoming stream
positions and a concrete sampling family. -/
theorem synthetic_generator_deterministic_complete_witness :
    (generate_synthetic_data rngW 0 1).1 = (generate_synthetic_data rngW 7 1).1 ∧
      (generate_synthetic_data rngW 0 1).1.nrows = 1 ∧
      requiredColsFilled 1 (generate_synthetic_data rngW 0 1).1 :=
  synthetic_generator_deterministic_complete rngW 0 7 1 (by norm_num)
    (fun _ _ _ => by norm_num [rngW])

/-- Witness for C10 on the one-row table whose single redshift is `0.1`. -/
theorem redshift_color_degenerate_witness :
    fsub (redshift_bounds (some oneRowTableW)).2 (redshift_bounds (some oneRowTableW)).1 =
        FVal.num 0 ∧
      redshift_plasma_pos (some oneRowTableW) (FVal.num (1/10)) = FVal.nan ∧
      redshift_to_color (some oneRowTableW) (FVal.num (1/10)) = 258 ∧
      256 ≤ redshift_to_color (some oneRowTableW) (FVal.num (1/10)) :=
  redshift_color_degenerate oneRowTableW [FVal.num (1/10)] (1/10) rfl
    (List.cons_ne_nil _ _) (fun _ hv => List.mem_singleton.mp hv)

/-- Claim C1: for every requested row count, `fetch_galaxy_data` returns
a table together with a boolean provenance flag, and each failure in
{network timeout, non-200 HTTP status, HTML content instead of tabular
content, parse error, zero-row result} makes it populate the table via
the synthetic generator and return `False`; no such failure escapes the
function (the embedding is a total function). -/
theorem fetch_falls_back_to_synthetic (rng : NumpyRandom) (s : ℕ) (net : NetEnv)
    (parse : String → Except String Table) (limit : ℕ)
    (hfail :
      net.mainResult = none ∨
      (∃ st body, net.mainResult = some (st, body) ∧ st ≠ 200) ∨
      (∃ body, net.mainResult = some (200, body) ∧ isHtmlLike body.trim = true) ∨
      (∃ body e, net.mainResult = some (200, body) ∧ isHtmlLike body.trim = false ∧
        parse (strip_table_header body.trim) = Except.error e) ∨
      (∃ body gd, net.mainResult = some (200, body) ∧ isHtmlLike body.trim = false ∧
        parse (strip_table_header body.trim) = Except.ok gd ∧ gd.nrows = 0)) :
    fetch_galaxy_data rng s net parse limit =
      ((generate_synthetic_data rng s limit).1, false) := by
  unfold fetch_galaxy_data
  by_cases hbig : 25 < limit ∧ net.testConn = false
  · rw [if_pos hbig]
  · rw [if_neg hbig]
    rcases hfail with h | ⟨st, body, h, hst⟩ | ⟨body, h, hh⟩ |
      ⟨body, e, h, hh, hp⟩ | ⟨body, gd, h, hh, hp, hz⟩
    · rw [h]
    · simp [h, hst]
    · simp [h, hh]
    · simp [h, hh, hp]
    · simp [h, hh, hp, hz]

/-- Witness for C1: a timed-out main request at row count 1 yields the
synthetic table and the flag `False`. -/
theorem fetch_falls_back_to_synthetic_witness :
    fetch_galaxy_data rngW 0 netTimeoutW parseFailW 1 =
      ((generate_synthetic_data rngW 0 1).1, false) :=
  fetch_falls_back_to_synthetic rngW 0 netTimeoutW parseFailW 1 (Or.inl rfl)

theorem update_one_satellite_other (m t : ℕ) (st : AnimState) (pname : String)
    (sat : Satellite) (name : String)
    (h : pname = name → calculate_satellite_position sat t = (none, none, none)) :
    ((update_one_satellite m t st pname sat).1.points name = st.points name) ∧
    ((update_one_satellite m t st pname sat).1.trails name = st.trails name) ∧
    ((update_one_satellite m t st pname sat).1.trailLines name = st.trailLines name) := by
  by_cases hname : pname = name
  · rw [update_one_satellite, h hname]
    exact ⟨rfl, rfl, rfl⟩
  · rw [update_one_satellite]
    rcases hpos : calculate_satellite_position sat t with ⟨ox, oy, oz⟩
    cases ox with
    | none => exact ⟨rfl, rfl, rfl⟩
    | some x =>
      cases oy with
      | none => exact ⟨rfl, rfl, rfl⟩
      | some y =>
        have hne : ¬ name = pname := fun hh => hname hh.symm
        simp [hne]

theorem anim_fold_preserves_missing (m t : ℕ) (name : String) :
    ∀ (sats : List (String × Satellite)) (st : AnimState) (k : ℕ),
      (∀ p ∈ sats, p.1 = name →
        calculate_satellite_position p.2 t = (none, none, none)) →
      ((sats.foldl (anim_step m t) (st, k)).1.points name = st.points name ∧
       (sats.foldl (anim_step m t) (st, k)).1.trails name = st.trails name ∧
       (sats.foldl (anim_step m t) (st, k)).1.trailLines name = st.trailLines name) := by
  intro sats
  induction sats with
  | nil => intro st k _; exact ⟨rfl, rfl, rfl⟩
  | cons p ps ih =>
    intro st k hskip
    have hone := update_one_satellite_other m t st p.1 p.2 name (hskip p (by simp))
    have hfold := ih (update_one_satellite m t st p.1 p.2).1
      (k + if (update_one_satellite m t st p.1 p.2).2 then 1 else 0)
      (fun q hq hqn => hskip q (by simp [hq]) hqn)
    have hstep : ((p :: ps).foldl (anim_step m t) (st, k)) =
        ps.foldl (anim_step m t)
          ((update_one_satellite m t st p.1 p.2).1,
           k + if (update_one_satellite m t st p.1 p.2).2 then 1 else 0) := rfl
    rw [hstep]
    exact ⟨by rw [hfold.1, hone.1], by rw [hfold.2.1, hone.2.1],
      by rw [hfold.2.2, hone.2.2]⟩

/-- Claim C7: on any animation tick, a tracked satellite whose position
function raises (so that `calculate_satellite_position` yields
`(None, None, None)`) keeps its displayed point, its trail history and
its displayed trail line unchanged — the satellite is skipped, and the
tick, being a total function, does not crash. -/
theorem failing_position_tick_skips (m : ℕ) (sats : List (String × Satellite))
    (t : ℕ) (st : AnimState) (name : String)
    (hfails : ∀ p ∈ sats, p.1 = name →
      calculate_satellite_position p.2 t = (none, none, none)) :
    (update_animation m sats t st).1.points name = st.points name ∧
    (update_animation m sats t st).1.trails name = st.trails name ∧
    (update_animation m sats t st).1.trailLines name = st.trailLines name :=
  anim_fold_preserves_missing m t name sats st 0 hfails

/-- Witness for C7: one tick over a single satellite whose position
computation always raises leaves the concrete state untouched. -/
theorem failing_position_tick_skips_witness :
    (update_animation 50 [("SAT-1", failSatW)] 0 animStateW).1.points "SAT-1" =
        animStateW.points "SAT-1" ∧
      (update_animation 50 [("SAT-1", failSatW)] 0 animStateW).1.trails "SAT-1" =
        animStateW.trails "SAT-1" ∧
      (update_animation 50 [("SAT-1", failSatW)] 0 animStateW).1.trailLines "SAT-1" =
        animStateW.trailLines "SAT-1" :=
  failing_position_tick_skips 50 [("SAT-1", failSatW)] 0 animStateW "SAT-1"
    (fun p hp _ => by
      have hp1 : p = ("SAT-1", failSatW) := List.mem_singleton.mp hp
      rw [hp1]
      rfl)

theorem deque_append_length_le (m : ℕ) (q : List (ℚ × ℚ)) (p : ℚ × ℚ) :
    (deque_append m q p).length ≤ m := by
  simp only [deque_append, List.length_drop]
  omega

theorem deque_append_at_capacity (m : ℕ) (q : List (ℚ × ℚ)) (p : ℚ × ℚ)
    (hq : q.length = m) (hm : 0 < m) : deque_append m q p = q.tail ++ [p] := by
  cases q with
  | nil =>
    rw [List.length_nil] at hq
    omega
  | cons x xs =>
    rw [List.length_cons] at hq
    have hlen : ((x :: xs) ++ [p]).length - m = 1 := by
      have h2 : ((x :: xs) ++ [p]).length = xs.length + 2 := by simp
      omega
    show ((x :: xs) ++ [p]).drop (((x :: xs) ++ [p]).length - m) = xs ++ [p]
    rw [hlen]
    rfl

theorem anim_fold_trails_le (m t : ℕ) (name : String) :
    ∀ (sats : List (String × Satellite)) (st : AnimState) (k : ℕ),
      (st.trails name).length ≤ m →
      (((sats.foldl (anim_step m t) (st, k)).1).trails name).length ≤ m := by
  intro sats
  induction sats with
  | nil => intro st k h; exact h
  | cons p ps ih =>
    intro st k h
    have hstep : ((p :: ps).foldl (anim_step m t) (st, k)) =
        ps.foldl (anim_step m t)
          ((update_one_satellite m t st p.1 p.2).1,
           k + if (update_one_satellite m t st p.1 p.2).2 then 1 else 0) := rfl
    rw [hstep]
    refine ih _ _ ?_
    rw [update_one_satellite]
    rcases hpos : calculate_satellite_position p.2 t with ⟨ox, oy, oz⟩
    cases ox with
    | none => exact h
    | some x =>
      cases oy with
      | none => exact h
      | some y =>
        by_cases hname : name = p.1
        · simp only [hname, if_pos rfl]
          exact deque_append_length_le m _ _
        · simp only [if_neg hname]
          exact h

/-- Claim C8: each satellite's trail is bounded by the fixed capacity
`trail_length` — appending never produces more than `trail_length`
entries, a tick keeps every trail within the capacity, and appending to
a trail at capacity drops exactly the oldest point while preserving the
order of the remaining points. -/
theorem trail_bounded_by_capacity (m : ℕ) (q : List (ℚ × ℚ)) (p : ℚ × ℚ)
    (sats : List (String × Satellite)) (t : ℕ) (st : AnimState) (name : String)
    (hq : q.length = m) (hm : 0 < m) (hst : (st.trails name).length ≤ m) :
    (∀ q2 : List (ℚ × ℚ), (deque_append m q2 p).length ≤ m) ∧
      deque_append m q p = q.tail ++ [p] ∧
      ((update_animation m sats t st).1.trails name).length ≤ m :=
  ⟨fun q2 => deque_append_length_le m q2 p,
   deque_append_at_capacity m q p hq hm,
   anim_fold_trails_le m t name sats st 0 hst⟩

/-- Witness for C8 with capacity 2, a full trail `[(1,2),(3,4)]` and the
new point `(5,6)`. -/
theorem trail_bounded_by_capacity_witness :
    (∀ q2 : List (ℚ × ℚ), (deque_append 2 q2 (5, 6)).length ≤ 2) ∧
      deque_append 2 [(1, 2), (3, 4)] (5, 6) = [(1, 2), (3, 4)].tail ++ [(5, 6)] ∧
      ((update_animation 2 [("SAT-1", failSatW)] 0 animStateW).1.trails "SAT-1").length ≤ 2 :=
  trail_bounded_by_capacity 2 [(1, 2), (3, 4)] (5, 6) [("SAT-1", failSatW)] 0
    animStateW "SAT-1" rfl (by norm_num) (by simp [animStateW])

/-- Counterexample to claim C9 as stated: a failing summary-file write
is fatal to the save step — `save_visualizations` has no handler around
`open(summary_file, 'w')`, so the error propagates out uncaught instead
of being logged. -/
theorem summary_write_failure_is_fatal :
    save_visualizations (Except.ok ()) (Except.ok ()) (Except.error "disk full")
      (some oneRowTableW) = Except.error "disk full" := rfl

/-- Claim C9 (amended): a file-system write failure during the CSV save
is non-fatal — `_save_sdss_data_to_csv` catches it, logs a warning and
leaves the in-memory table unchanged and usable — but a write failure
during the summary-file write propagates out of `save_visualizations`
uncaught (the attempt still never mutates the in-memory table). -/
theorem csv_save_nonfatal_table_preserved (w : Except String Unit) (t : Table)
    (e : String) :
    (save_sdss_data_to_csv w t).1 = t ∧
      (save_sdss_data_to_csv (Except.error e) t).2 ≠ [] ∧
      save_visualizations (Except.ok ()) (Except.ok ()) (Except.error e) (some t) =
        Except.error e := by
  refine ⟨?_, by simp [save_sdss_data_to_csv], rfl⟩
  cases w <;> rfl

end DataViz
